import Mathlib

/-!
Verification of the flashcard generation pipeline and the flashcard list UI
of the fiszki-pl-en repository.

The generation pipeline (Input Normalizer, Quota Guard, Generation Session
Manager, Batch Translator, Result Reconciler) is described by the design
documents of the repository but its implementation source is not part of the
available files, so those components are modelled from the specification text.
The `useFlashcards` hook and the `Pagination` component are embedded directly
from their TypeScript sources.
-/

namespace Fiszki

/-! ## Data model -/

/-- Modelled from the spec: the session status column of `generation_sessions`
(`status IN ('pending', 'processing', 'completed', 'partial', 'failed')`),
as a closed sum type per the design note in section 9 of the spec.
The constructor `mixed` stands for the status string `partial` (at least one
sentence succeeded and at least one failed); the word itself is a reserved
keyword in Lean and cannot be used as a constructor name. -/
inductive SessionStatus where
  | pending
  | processing
  | completed
  | mixed
  | failed
  deriving DecidableEq, Repr

/-- Modelled from the spec: a row of `generation_sessions` (section 3 of the
spec and section 1.3 of the database plan). Identifiers, user identifiers and
timestamps are abstracted as natural numbers; `createdAt` is the day index of
the quota window the session was created in. -/
structure GenerationSession where
  id : Nat
  userId : Nat
  inputCount : Nat
  generatedCount : Nat
  status : SessionStatus
  errorMessage : Option String
  durationMs : Option Nat
  createdAt : Nat
  deriving DecidableEq, Repr

/-- Modelled from the spec: the subset of a `flashcards` row relevant to the
generation core (section 3 of the spec and section 1.2 of the database plan). -/
structure Flashcard where
  id : Nat
  userId : Nat
  sentenceEn : String
  translationPl : String
  source : String
  isEdited : Bool
  deriving DecidableEq, Repr

/-- Modelled from the spec: the error taxonomy of section 7 that can abort a
whole generation request (`ValidationError`, `QuotaExceededError`, and a
`PersistenceError` occurring before any session row can be created). -/
inductive GenError where
  | validationError
  | quotaExceededError
  | persistenceError
  deriving DecidableEq, Repr

/-- Modelled from the spec: the Relational Store state visible to the core,
holding the `generation_sessions` and `flashcards` rows. -/
structure Store where
  sessions : List GenerationSession
  flashcards : List Flashcard
  deriving DecidableEq, Repr

/-! ## Input Normalizer (spec section 4.1) -/

/-- Modelled from the spec: stripping the surrounding whitespace of one raw
entry, on the character-list representation of the string. -/
def stripEntry (s : String) : String :=
  String.mk
    (((s.data.dropWhile Char.isWhitespace).reverse.dropWhile
      Char.isWhitespace).reverse)

/-- Modelled from the spec: the Input Normalizer. It strips surrounding
whitespace from each raw entry, drops entries that become empty, fails with
`ValidationError` when the remaining count is below 5 or above 30 or when a
remaining sentence exceeds 200 characters, and otherwise returns the filtered
ordered sequence together with its count. -/
def normalizeInput (raw : List String) : Except GenError (List String × Nat) :=
  if ((raw.map stripEntry).filter (fun s => s ≠ "")).length < 5 ∨
      ((raw.map stripEntry).filter (fun s => s ≠ "")).length > 30 then
    .error .validationError
  else if ((raw.map stripEntry).filter (fun s => s ≠ "")).any
      (fun s => s.length > 200) then
    .error .validationError
  else
    .ok ((raw.map stripEntry).filter (fun s => s ≠ ""),
         ((raw.map stripEntry).filter (fun s => s ≠ "")).length)

/-! ## Quota Guard (spec section 4.2) -/

/-- Modelled from the spec: the derived quota window of section 3 — the sum of
`inputCount` over all sessions of the given user whose `createdAt` falls within
the current day window. -/
def usedToday (sessions : List GenerationSession) (userId day : Nat) : Nat :=
  ((sessions.filter (fun s => s.userId == userId && s.createdAt == day)).map
    (fun s => s.inputCount)).sum

/-- Modelled from the spec: the Quota Guard check — given the sentences already
used today and the candidate `inputCount`, fail with `QuotaExceededError` when
`used + inputCount > 100`, otherwise allow the request to proceed. -/
def quotaGuard (used inputCount : Nat) : Except GenError Unit :=
  if used + inputCount > 100 then .error .quotaExceededError else .ok ()

/-! ## Generation Session Manager (spec section 4.3) -/

/-- Modelled from the spec: terminal statuses, from which no further
transition occurs. -/
def isTerminal : SessionStatus → Bool
  | .completed => true
  | .mixed => true
  | .failed => true
  | _ => false

/-- Modelled from the spec: the one-directional status transition relation of
section 4.3 — `pending` to `processing`, and `processing` to one of the
terminal statuses. -/
def canTransition : SessionStatus → SessionStatus → Bool
  | .pending, .processing => true
  | .processing, .completed => true
  | .processing, .mixed => true
  | .processing, .failed => true
  | _, _ => false

/-- Modelled from the spec: session creation by the Session Manager once input
validation and the quota check pass — the session enters `processing` with the
persisted `inputCount` and `generatedCount = 0`. -/
def createSession (userId inputCount sessionId day : Nat) : GenerationSession :=
  { id := sessionId
    userId := userId
    inputCount := inputCount
    generatedCount := 0
    status := .processing
    errorMessage := none
    durationMs := none
    createdAt := day }

/-- Modelled from the spec: the final status chosen by the Result Reconciler —
`completed` when there are no failures, `failed` when there are no successes,
and the partial status otherwise. -/
def finalStatus (successes total : Nat) : SessionStatus :=
  if total - successes = 0 then .completed
  else if successes = 0 then .failed
  else .mixed

/-- Modelled from the spec: finalization of a session — atomically set the
status, `generatedCount`, `durationMs` and, when the status is not `completed`,
a short user-safe `errorMessage`. -/
def finalizeSession (s : GenerationSession) (successes durationMs total : Nat) :
    GenerationSession :=
  let st := finalStatus successes total
  { s with
    status := st
    generatedCount := successes
    durationMs := some durationMs
    errorMessage :=
      if st = SessionStatus.completed then none
      else some "Some sentences could not be translated" }

/-! ## Batch Translator (spec section 4.4) -/

/-- Modelled from the spec: the tagged outcome of one per-sentence call to the
Generation Service — success with a translation, or failure with a reason. -/
inductive ItemResult where
  | success (translation : String)
  | failure (reason : String)
  deriving DecidableEq, Repr

/-- Modelled from the spec: the Batch Translator — the Generation Service is
invoked once per sentence, preserving input order; the result sequence has the
same length and order as the input. The service itself is an oracle parameter. -/
def batchTranslate (svc : String → ItemResult) (sentences : List String) :
    List ItemResult :=
  sentences.map svc

/-! ## Result Reconciler (spec section 4.5) -/

/-- Modelled from the spec: the defensive re-check of the Result Reconciler.
A successful translation is demoted to a failure when the original sentence or
the translation is empty or exceeds the 200-character bound; failures are kept
as they are. -/
def reconcileItem (sentence : String) (r : ItemResult) : ItemResult :=
  match r with
  | .success t =>
      if sentence.length = 0 ∨ sentence.length > 200
          ∨ t.length = 0 ∨ t.length > 200 then
        .failure "invalid generated output"
      else
        .success t
  | .failure reason => .failure reason

/-- Extracts the translation of an item that remains a success. -/
def keptTranslation : ItemResult → Option String
  | .success t => some t
  | .failure _ => none

/-- Modelled from the spec: the (sentence, translation) pairs that remain
successes after the defensive re-check, in original input order. -/
def successPairs (sentences : List String) (results : List ItemResult) :
    List (String × String) :=
  (sentences.zip results).filterMap
    (fun p => (keptTranslation (reconcileItem p.1 p.2)).map (fun t => (p.1, t)))

/-- Modelled from the spec: the aggregate outcome computed by the Result
Reconciler from the tagged sequence of the Batch Translator. -/
structure ReconcileOutcome where
  kept : List (String × String)
  generatedCount : Nat
  failedCount : Nat
  status : SessionStatus
  deriving DecidableEq, Repr

/-- Modelled from the spec: the Result Reconciler aggregation — count the
items that remain successes after the re-check, set `generatedCount` to that
count, `failedCount` to the remainder of the total, and choose the final
status from the success and failure counts. -/
def reconcileOutcome (sentences : List String) (results : List ItemResult) :
    ReconcileOutcome :=
  let kept := successPairs sentences results
  { kept := kept
    generatedCount := kept.length
    failedCount := sentences.length - kept.length
    status := finalStatus kept.length sentences.length }

/-- Modelled from the spec: flashcard rows persisted by the Result Reconciler,
one per item that remains a success, in original order, with `source = "ai"`
and `isEdited = false`. -/
def mkFlashcards (userId freshId : Nat) (items : List (String × String)) :
    List Flashcard :=
  items.enum.map (fun p =>
    { id := freshId + p.1
      userId := userId
      sentenceEn := p.2.1
      translationPl := p.2.2
      source := "ai"
      isEdited := false })

/-- Whether a sentence remains a success after its per-sentence call and the
defensive re-check of the Result Reconciler. -/
def keepAfterCheck (svc : String → ItemResult) (s : String) : Bool :=
  (keptTranslation (reconcileItem s (svc s))).isSome

/-! ## The full generation request (spec sections 2, 4, 6, 7) -/

/-- Modelled from the spec: the response assembled for the caller — session
identifier, final status, the persisted flashcards (successes only),
`generatedCount`, `failedCount` and `durationMs`. -/
structure GenerateResponse where
  sessionId : Nat
  status : SessionStatus
  flashcards : List Flashcard
  generatedCount : Nat
  failedCount : Nat
  durationMs : Nat
  deriving DecidableEq, Repr

/-- Modelled from the spec: one whole generation request, per the control flow
of section 2. The raw input passes the Input Normalizer, then the Quota Guard;
`sessionWriteOk` models whether the initial session-row write succeeds (a
`PersistenceError` before any session row is created aborts the request with
no store mutation); then the session enters `processing`, the Batch Translator
runs the per-sentence oracle `svc`, and the Result Reconciler persists the
successful flashcards and finalizes the session. The store is returned in both
the failing and the successful case. -/
def generate (svc : String → ItemResult) (sessionWriteOk : Bool) (store : Store)
    (userId day sessionId freshCardId durationMs : Nat) (raw : List String) :
    Store × Except GenError GenerateResponse :=
  match normalizeInput raw with
  | .error e => (store, .error e)
  | .ok (sentences, n) =>
    match quotaGuard (usedToday store.sessions userId day) n with
    | .error e => (store, .error e)
    | .ok _ =>
      if !sessionWriteOk then
        (store, .error .persistenceError)
      else
        let created := createSession userId n sessionId day
        let results := batchTranslate svc sentences
        let outcome := reconcileOutcome sentences results
        let cards := mkFlashcards userId freshCardId outcome.kept
        let finalized := finalizeSession created outcome.generatedCount durationMs n
        ({ sessions := store.sessions ++ [finalized]
           flashcards := store.flashcards ++ cards },
         .ok { sessionId := sessionId
               status := outcome.status
               flashcards := cards
               generatedCount := outcome.generatedCount
               failedCount := outcome.failedCount
               durationMs := durationMs })


/-! ## The useFlashcards hook (embedded from the TypeScript source) -/

/-- The source filter of the `useFlashcards` hook, embedded from the
TypeScript union `FlashcardSource | "all"`. -/
inductive SourceFilter where
  | all
  | ai
  | manual
  deriving DecidableEq, Repr

/-- Embedded from `FlashcardSortField` (`created_at` or `updated_at`). -/
inductive FlashcardSortField where
  | createdAt
  | updatedAt
  deriving DecidableEq, Repr

/-- Embedded from `SortOrder` (`asc` or `desc`). -/
inductive SortOrder where
  | asc
  | desc
  deriving DecidableEq, Repr

/-- The filter state of the `useFlashcards` hook, embedded from the
`FlashcardFilters` interface. -/
structure FlashcardFilters where
  source : SourceFilter
  search : String
  sort : FlashcardSortField
  order : SortOrder
  limit : Int
  offset : Int
  deriving DecidableEq, Repr

/-- Embedded from `DEFAULT_FILTERS` in the hook source. -/
def DEFAULT_FILTERS : FlashcardFilters :=
  { source := .all
    search := ""
    sort := .createdAt
    order := .desc
    limit := 12
    offset := 0 }

/-- Embedded from the hook's `setSource`:
`setFilters((prev) => ({ ...prev, source, offset: 0 }))`. -/
def setSource (prev : FlashcardFilters) (source : SourceFilter) :
    FlashcardFilters :=
  { prev with source := source, offset := 0 }

/-- Embedded from the hook's `setSearch`:
`setFilters((prev) => ({ ...prev, search, offset: 0 }))`. -/
def setSearch (prev : FlashcardFilters) (search : String) :
    FlashcardFilters :=
  { prev with search := search, offset := 0 }

/-- Embedded from the hook's `setSort`:
`setFilters((prev) => ({ ...prev, sort, offset: 0 }))`. -/
def setSort (prev : FlashcardFilters) (sort : FlashcardSortField) :
    FlashcardFilters :=
  { prev with sort := sort, offset := 0 }

/-- Embedded from the hook's `setOrder`:
`setFilters((prev) => ({ ...prev, order, offset: 0 }))`. -/
def setOrder (prev : FlashcardFilters) (order : SortOrder) :
    FlashcardFilters :=
  { prev with order := order, offset := 0 }

/-- Embedded from the hook's `goToPage`:
`setFilters((prev) => ({ ...prev, offset: (page - 1) * prev.limit }))`. -/
def goToPage (prev : FlashcardFilters) (page : Int) : FlashcardFilters :=
  { prev with offset := (page - 1) * prev.limit }

/-- Embedded from the hook's `resetFilters`: `setFilters(DEFAULT_FILTERS)`. -/
def resetFilters (_prev : FlashcardFilters) : FlashcardFilters :=
  DEFAULT_FILTERS

/-- One filter-state update exposed by the `useFlashcards` hook. -/
inductive FilterOp where
  | opSetSource (source : SourceFilter)
  | opSetSearch (search : String)
  | opSetSort (sort : FlashcardSortField)
  | opSetOrder (order : SortOrder)
  | opGoToPage (page : Int)
  | opReset
  deriving DecidableEq, Repr

/-- Applies one filter-state update of the hook. -/
def applyOp (prev : FlashcardFilters) : FilterOp → FlashcardFilters
  | .opSetSource s => setSource prev s
  | .opSetSearch s => setSearch prev s
  | .opSetSort s => setSort prev s
  | .opSetOrder o => setOrder prev o
  | .opGoToPage p => goToPage prev p
  | .opReset => resetFilters prev

/-- Applies a sequence of filter-state updates, oldest first. -/
def applyOps (init : FlashcardFilters) (ops : List FilterOp) :
    FlashcardFilters :=
  ops.foldl applyOp init

/-! ## The Pagination component (embedded from the TypeScript source) -/

/-- An entry of the page-number list of the `Pagination` component: a page
number or the ellipsis placeholder. -/
inductive PageEntry where
  | page (n : Int)
  | ellipsis
  deriving DecidableEq, Repr

/-- The list of integers from `a` to `b` inclusive (empty when `b < a`),
mirroring the ascending `for` loops of the component. -/
def intRange (a b : Int) : List Int :=
  (List.range (b + 1 - a).toNat).map (fun (i : Nat) => a + (i : Int))

/-- Embedded from the `pageNumbers` computation of the `Pagination`
component, with `maxVisiblePages = 5`: show all pages when
`totalPages <= maxVisiblePages + 2`; otherwise show the first page, the pages
from `max 2 (currentPage - 1)` to `min (totalPages - 1) (currentPage + 1)`,
and the last page, with an ellipsis after the first page when the range
starts above 2 and an ellipsis before the last page when it stops below
`totalPages - 1`. -/
def pageNumbers (currentPage totalPages : Int) : List PageEntry :=
  if totalPages ≤ 5 + 2 then
    (intRange 1 totalPages).map PageEntry.page
  else
    [PageEntry.page 1]
      ++ (if max 2 (currentPage - 1) > 2 then [PageEntry.ellipsis] else [])
      ++ (intRange (max 2 (currentPage - 1))
            (min (totalPages - 1) (currentPage + 1))).map PageEntry.page
      ++ (if min (totalPages - 1) (currentPage + 1) < totalPages - 1 then
            [PageEntry.ellipsis] else [])
      ++ [PageEntry.page totalPages]

/-- The numeric value of a page entry, if any. -/
def entryNum : PageEntry → Option Int
  | .page n => some n
  | .ellipsis => none

/-- The numeric entries of a page-entry list, in order. -/
def numericEntries (l : List PageEntry) : List Int :=
  l.filterMap entryNum

/-- Checks that every ellipsis entry of the list sits immediately between two
numeric entries whose difference is greater than one. -/
def ellipsisOk : List PageEntry → Bool
  | [] => true
  | .ellipsis :: _ => false
  | [.page _] => true
  | .page _ :: .page b :: rest => ellipsisOk (.page b :: rest)
  | [.page _, .ellipsis] => false
  | .page _ :: .ellipsis :: .ellipsis :: _ => false
  | .page a :: .ellipsis :: .page b :: rest =>
      decide (b - a > 1) && ellipsisOk (.page b :: rest)

/-! ## Claim theorems -/

/-- C2: For every raw input sequence of strings, the Input Normalizer strips
surrounding whitespace from each entry, drops entries that become empty, fails
with `ValidationError` if and only if the remaining count is below 5 or above
30 or some remaining sentence exceeds 200 characters, and otherwise outputs
exactly the remaining sentences in their original relative order together with
their count; the six-element example input with one empty string normalizes to
5 sentences and passes validation. -/
theorem input_normalizer_spec (raw : List String) :
    (normalizeInput raw = .error GenError.validationError ↔
      ((raw.map stripEntry).filter (fun s => s ≠ "")).length < 5 ∨
      ((raw.map stripEntry).filter (fun s => s ≠ "")).length > 30 ∨
      ∃ s ∈ (raw.map stripEntry).filter (fun s => s ≠ ""), s.length > 200) ∧
    (∀ e, normalizeInput raw = .error e → e = GenError.validationError) ∧
    (∀ out n, normalizeInput raw = .ok (out, n) →
      out = (raw.map stripEntry).filter (fun s => s ≠ "") ∧ n = out.length) ∧
    normalizeInput ["Hello", "Good morning", "", "Thanks", "See you", "Bye"] =
      .ok (["Hello", "Good morning", "Thanks", "See you", "Bye"], 5) := by
  refine ⟨?_, ?_, ?_, rfl⟩
  · unfold normalizeInput
    split
    · next h1 =>
      constructor
      · intro _
        rcases h1 with h | h
        · exact Or.inl h
        · exact Or.inr (Or.inl h)
      · intro _
        rfl
    · next h1 =>
      push_neg at h1
      split
      · next h2 =>
        rw [List.any_eq_true] at h2
        obtain ⟨s, hs, hlen⟩ := h2
        constructor
        · intro _
          exact Or.inr (Or.inr ⟨s, hs, of_decide_eq_true hlen⟩)
        · intro _
          rfl
      · next h2 =>
        rw [List.any_eq_true] at h2
        constructor
        · intro hcontra
          exact absurd hcontra (by simp)
        · intro hr
          rcases hr with h | h | h
          · omega
          · omega
          · obtain ⟨s, hs, hlen⟩ := h
            exact absurd ⟨s, hs, decide_eq_true hlen⟩ h2
  · intro e he
    unfold normalizeInput at he
    split at he
    · exact (Except.error.inj he).symm
    · split at he
      · exact (Except.error.inj he).symm
      · exact absurd he (by simp)
  · intro out n hok
    unfold normalizeInput at hok
    split at hok
    · exact absurd hok (by simp)
    · split at hok
      · exact absurd hok (by simp)
      · have h := Except.ok.inj hok
        have h1 : out = (raw.map stripEntry).filter (fun s => s ≠ "") :=
          (congrArg Prod.fst h).symm
        refine ⟨h1, ?_⟩
        have h2 := (congrArg Prod.snd h).symm
        simpa [h1] using h2

/-- Witness for C2: an input of 31 non-empty sentences fails validation, and
the six-element example input normalizes to its 5 non-empty entries. -/
theorem input_normalizer_spec_witness :
    normalizeInput (List.replicate 31 "x") = .error GenError.validationError ∧
    (["Hello", "Good morning", "Thanks", "See you", "Bye"] =
      ((["Hello", "Good morning", "", "Thanks", "See you", "Bye"].map
          stripEntry).filter (fun s => s ≠ "")) ∧
      5 = (["Hello", "Good morning", "Thanks", "See you", "Bye"] :
            List String).length) := by
  constructor
  · exact (input_normalizer_spec (List.replicate 31 "x")).1.mpr (by decide)
  · exact (input_normalizer_spec
      ["Hello", "Good morning", "", "Thanks", "See you", "Bye"]).2.2.1 _ _ rfl

/-- C1: with `used` the sum of `inputCount` over the sessions of the user
created in the current day window, the Quota Guard rejects with
`QuotaExceededError` if and only if `used + inputCount > 100`; a total of
exactly 100 is allowed and 101 is rejected; and when the quota check rejects,
the whole generation request returns the quota error with the store left
unchanged, so no further action is performed. -/
theorem quota_guard_spec (store : Store) (userId day n : Nat)
    (svc : String → ItemResult) (writeOk : Bool)
    (sessionId freshCardId durationMs : Nat) (raw : List String) :
    (quotaGuard (usedToday store.sessions userId day) n =
        .error GenError.quotaExceededError ↔
      usedToday store.sessions userId day + n > 100) ∧
    (∀ used m, used + m = 100 → quotaGuard used m = .ok ()) ∧
    (∀ used m, used + m = 101 →
      quotaGuard used m = .error GenError.quotaExceededError) ∧
    (∀ sentences m, normalizeInput raw = .ok (sentences, m) →
      usedToday store.sessions userId day + m > 100 →
      generate svc writeOk store userId day sessionId freshCardId durationMs raw =
        (store, .error GenError.quotaExceededError)) := by
  refine ⟨?_, ?_, ?_, ?_⟩
  · unfold quotaGuard
    split
    · next h => exact iff_of_true rfl h
    · next h => exact iff_of_false (by simp) h
  · intro used m hsum
    unfold quotaGuard
    rw [if_neg (by omega)]
  · intro used m hsum
    unfold quotaGuard
    rw [if_pos (by omega)]
  · intro sentences m hnorm hgt
    unfold generate quotaGuard
    rw [hnorm]
    dsimp only
    rw [if_pos hgt]

/-- Witness for C1: a user with 98 sentences used today submitting 5 sentences
is rejected with the store unchanged; 95 + 5 = 100 is allowed and 96 + 5 = 101
is rejected. -/
theorem quota_guard_spec_witness :
    (generate (fun _ => ItemResult.failure "err") true
        { sessions := [{ id := 0, userId := 0, inputCount := 98,
                         generatedCount := 98, status := SessionStatus.completed,
                         errorMessage := none, durationMs := some 1,
                         createdAt := 0 }],
          flashcards := [] } 0 0 1 1 0 ["aa", "bb", "cc", "dd", "ee"] =
      ({ sessions := [{ id := 0, userId := 0, inputCount := 98,
                        generatedCount := 98, status := SessionStatus.completed,
                        errorMessage := none, durationMs := some 1,
                        createdAt := 0 }],
         flashcards := [] }, .error GenError.quotaExceededError)) ∧
    quotaGuard 95 5 = .ok () ∧
    quotaGuard 96 5 = .error GenError.quotaExceededError := by
  refine ⟨?_, ?_, ?_⟩
  · exact (quota_guard_spec _ 0 0 5 (fun _ => ItemResult.failure "err") true 1 1 0
      ["aa", "bb", "cc", "dd", "ee"]).2.2.2 ["aa", "bb", "cc", "dd", "ee"] 5 rfl
      (by decide)
  · exact (quota_guard_spec ⟨[], []⟩ 0 0 0 (fun _ => ItemResult.failure "e") true
      0 0 0 []).2.1 95 5 (by decide)
  · exact (quota_guard_spec ⟨[], []⟩ 0 0 0 (fun _ => ItemResult.failure "e") true
      0 0 0 []).2.2.1 96 5 (by decide)

/-- The final status is `completed` exactly when the failure count is zero. -/
theorem finalStatus_completed_iff (g n : Nat) :
    finalStatus g n = SessionStatus.completed ↔ n - g = 0 := by
  unfold finalStatus
  split_ifs with h1 h2 <;> simp_all

/-- The final status is the partial status exactly when the success count is
strictly between zero and the total. -/
theorem finalStatus_mixed_iff (g n : Nat) :
    finalStatus g n = SessionStatus.mixed ↔ 0 < g ∧ g < n := by
  unfold finalStatus
  split_ifs with h1 h2 <;> simp_all <;> omega

/-- For a positive total, the final status is `failed` exactly when the
success count is zero. -/
theorem finalStatus_failed_iff (g n : Nat) (hn : 1 ≤ n) :
    finalStatus g n = SessionStatus.failed ↔ (g = 0 ∧ g < n) := by
  unfold finalStatus
  split_ifs with h1 h2 <;> simp_all <;> omega

/-- At most as many items remain successes as there are input sentences. -/
theorem successPairs_length_le (sentences : List String)
    (results : List ItemResult) :
    (successPairs sentences results).length ≤ sentences.length := by
  refine le_trans (List.length_filterMap_le _ _) ?_
  rw [List.length_zip]
  exact Nat.min_le_left _ _

/-- C3: for every finalized generation session, the Result Reconciler sets
`generatedCount` to the number of successful items, and the final status is a
total function of the success and failure counts: `completed` exactly when
there are no failures (and then `generatedCount` equals the input count), the
partial status exactly when the success count is strictly between zero and the
total, and `failed` exactly when there are no successes (and then no flashcard
is persisted). -/
theorem result_reconciler_spec (sentences : List String)
    (results : List ItemResult) (userId freshId : Nat)
    (hpos : 1 ≤ sentences.length) :
    (reconcileOutcome sentences results).generatedCount =
        (reconcileOutcome sentences results).kept.length ∧
    ((reconcileOutcome sentences results).status = SessionStatus.completed ↔
      (reconcileOutcome sentences results).failedCount = 0) ∧
    ((reconcileOutcome sentences results).status = SessionStatus.completed →
      (reconcileOutcome sentences results).generatedCount = sentences.length) ∧
    ((reconcileOutcome sentences results).status = SessionStatus.mixed ↔
      0 < (reconcileOutcome sentences results).generatedCount ∧
      (reconcileOutcome sentences results).generatedCount < sentences.length) ∧
    ((reconcileOutcome sentences results).status = SessionStatus.failed ↔
      (reconcileOutcome sentences results).generatedCount = 0) ∧
    ((reconcileOutcome sentences results).status = SessionStatus.failed →
      (reconcileOutcome sentences results).kept = [] ∧
      mkFlashcards userId freshId (reconcileOutcome sentences results).kept
        = []) := by
  have hg := successPairs_length_le sentences results
  refine ⟨rfl, ?_, ?_, ?_, ?_, ?_⟩
  · simp only [reconcileOutcome]
    exact finalStatus_completed_iff _ _
  · simp only [reconcileOutcome]
    intro h
    have := (finalStatus_completed_iff _ _).mp h
    omega
  · simp only [reconcileOutcome]
    exact finalStatus_mixed_iff _ _
  · simp only [reconcileOutcome]
    rw [finalStatus_failed_iff _ _ hpos]
    omega
  · simp only [reconcileOutcome]
    intro h
    have h0 := (finalStatus_failed_iff _ _ hpos).mp h
    have hnil : successPairs sentences results = [] :=
      List.length_eq_zero.mp h0.1
    exact ⟨hnil, by rw [hnil]; rfl⟩

/-- Witness for C3: a five-sentence batch with two successes finalizes with
the partial status, and an all-failing batch keeps no item. -/
theorem result_reconciler_spec_witness :
    (reconcileOutcome ["s1", "s2", "s3", "s4", "s5"]
      [ItemResult.success "t1", ItemResult.failure "r",
       ItemResult.success "t3", ItemResult.failure "r",
       ItemResult.failure "r"]).status = SessionStatus.mixed ∧
    (reconcileOutcome ["s1", "s2", "s3", "s4", "s5"]
      [ItemResult.failure "r", ItemResult.failure "r", ItemResult.failure "r",
       ItemResult.failure "r", ItemResult.failure "r"]).kept = [] := by
  constructor
  · exact (result_reconciler_spec ["s1", "s2", "s3", "s4", "s5"]
      [ItemResult.success "t1", ItemResult.failure "r",
       ItemResult.success "t3", ItemResult.failure "r",
       ItemResult.failure "r"] 0 0 (by decide)).2.2.2.1.mpr (by decide)
  · exact ((result_reconciler_spec ["s1", "s2", "s3", "s4", "s5"]
      [ItemResult.failure "r", ItemResult.failure "r", ItemResult.failure "r",
       ItemResult.failure "r", ItemResult.failure "r"] 0 0 (by decide)).2.2.2.2.2
      (by decide)).1

/-- Running the Batch Translator and keeping the re-checked successes is the
same as deciding each sentence independently, in input order. -/
theorem successPairs_batchTranslate (svc : String → ItemResult)
    (sentences : List String) :
    successPairs sentences (batchTranslate svc sentences) =
      sentences.filterMap
        (fun s => (keptTranslation (reconcileItem s (svc s))).map
          (fun t => (s, t))) := by
  induction sentences with
  | nil => rfl
  | cons s ss ih =>
      simp only [successPairs, batchTranslate, List.map_cons, List.zip_cons_cons,
        List.filterMap_cons] at ih ⊢
      cases h : (keptTranslation (reconcileItem s (svc s))).map
          (fun t => (s, t)) with
      | none => simpa [h] using ih
      | some p => simp only [h, ih]

/-- The sentences of the kept pairs are exactly the input sentences whose
item remains a success, in their original order. -/
theorem filterMap_kept_fst (svc : String → ItemResult) (sentences : List String) :
    (sentences.filterMap
        (fun s => (keptTranslation (reconcileItem s (svc s))).map
          (fun t => (s, t)))).map Prod.fst =
      sentences.filter (fun s => keepAfterCheck svc s) := by
  induction sentences with
  | nil => rfl
  | cons s ss ih =>
      simp only [List.filterMap_cons, List.filter_cons]
      cases h : keptTranslation (reconcileItem s (svc s)) with
      | none => simp [keepAfterCheck, h, ih]
      | some t => simp [keepAfterCheck, h, ih]

/-- The persisted flashcards carry exactly the kept (sentence, translation)
pairs, in order. -/
theorem mkFlashcards_map_pair (userId freshId : Nat)
    (items : List (String × String)) :
    (mkFlashcards userId freshId items).map
        (fun f => (f.sentenceEn, f.translationPl)) = items := by
  unfold mkFlashcards
  rw [List.map_map]
  have hcomp : ((fun f : Flashcard => (f.sentenceEn, f.translationPl)) ∘
      (fun p : Nat × (String × String) =>
        ({ id := freshId + p.1, userId := userId, sentenceEn := p.2.1,
           translationPl := p.2.2, source := "ai", isEdited := false } :
          Flashcard))) = Prod.snd := by
    funext p
    simp
  rw [hcomp, List.enum_map_snd]

/-- The English sentences of the persisted flashcards are the first
components of the kept pairs, in order. -/
theorem mkFlashcards_map_sentenceEn (userId freshId : Nat)
    (items : List (String × String)) :
    (mkFlashcards userId freshId items).map (fun f => f.sentenceEn) =
      items.map Prod.fst := by
  have h := mkFlashcards_map_pair userId freshId items
  calc (mkFlashcards userId freshId items).map (fun f => f.sentenceEn)
      = ((mkFlashcards userId freshId items).map
          (fun f => (f.sentenceEn, f.translationPl))).map Prod.fst := by
        rw [List.map_map]
        rfl
    _ = items.map Prod.fst := by rw [h]

/-- C4: for every normalized input batch, the Batch Translator returns a
sequence of the same length and order as the input with each element tagged
success or failure, and the flashcards built from the reconciled outcome are
exactly the successful items, in the original input order of the sentences
that succeeded. -/
theorem batch_translator_order_spec (svc : String → ItemResult)
    (sentences : List String) (userId freshCardId : Nat) :
    (batchTranslate svc sentences).length = sentences.length ∧
    (∀ i : Nat, (batchTranslate svc sentences)[i]? = (sentences[i]?).map svc) ∧
    ((mkFlashcards userId freshCardId
        (reconcileOutcome sentences (batchTranslate svc sentences)).kept).map
        (fun f => (f.sentenceEn, f.translationPl)) =
      sentences.filterMap
        (fun s => (keptTranslation (reconcileItem s (svc s))).map
          (fun t => (s, t)))) ∧
    ((mkFlashcards userId freshCardId
        (reconcileOutcome sentences (batchTranslate svc sentences)).kept).map
        (fun f => f.sentenceEn) =
      sentences.filter (fun s => keepAfterCheck svc s)) := by
  refine ⟨List.length_map _ _, ?_, ?_, ?_⟩
  · intro i
    unfold batchTranslate
    exact List.getElem?_map svc sentences i
  · rw [mkFlashcards_map_pair]
    simp only [reconcileOutcome]
    exact successPairs_batchTranslate svc sentences
  · rw [mkFlashcards_map_sentenceEn]
    simp only [reconcileOutcome]
    rw [successPairs_batchTranslate]
    exact filterMap_kept_fst svc sentences

/-- When validation and the quota check pass and the initial session write
succeeds, a generation request appends exactly one finalized session and the
flashcards of the reconciled successes, and returns the assembled response. -/
theorem generate_ok_eq (svc : String → ItemResult) (store : Store)
    (userId day sessionId freshCardId durationMs : Nat) (raw : List String)
    (sentences : List String) (n : Nat)
    (hnorm : normalizeInput raw = .ok (sentences, n))
    (hquota : usedToday store.sessions userId day + n ≤ 100) :
    generate svc true store userId day sessionId freshCardId durationMs raw =
      ({ sessions := store.sessions ++
          [finalizeSession (createSession userId n sessionId day)
            (reconcileOutcome sentences
              (batchTranslate svc sentences)).generatedCount durationMs n],
         flashcards := store.flashcards ++
          mkFlashcards userId freshCardId
            (reconcileOutcome sentences (batchTranslate svc sentences)).kept },
       .ok { sessionId := sessionId
             status :=
               (reconcileOutcome sentences (batchTranslate svc sentences)).status
             flashcards := mkFlashcards userId freshCardId
               (reconcileOutcome sentences (batchTranslate svc sentences)).kept
             generatedCount := (reconcileOutcome sentences
               (batchTranslate svc sentences)).generatedCount
             failedCount := (reconcileOutcome sentences
               (batchTranslate svc sentences)).failedCount
             durationMs := durationMs }) := by
  unfold generate quotaGuard
  rw [hnorm]
  dsimp only
  rw [if_neg (by omega)]
  rfl

/-- C5: every generation request that fails before the session enters
processing (validation failure, quota rejection, or initial session-row write
failure) aborts with the store left unchanged — no session row is created and
no flashcard is written; conversely, once validation, quota and the session
write succeed, the request returns a response for every per-sentence oracle,
so per-sentence failures never abort the batch. -/
theorem abort_before_processing_spec (svc : String → ItemResult)
    (writeOk : Bool) (store : Store)
    (userId day sessionId freshCardId durationMs : Nat) (raw : List String) :
    (∀ e, (generate svc writeOk store userId day sessionId freshCardId
        durationMs raw).2 = .error e →
      (generate svc writeOk store userId day sessionId freshCardId
        durationMs raw).1 = store) ∧
    (∀ sentences n, normalizeInput raw = .ok (sentences, n) →
      usedToday store.sessions userId day + n ≤ 100 →
      writeOk = true →
      ∃ resp, (generate svc writeOk store userId day sessionId freshCardId
        durationMs raw).2 = .ok resp) := by
  constructor
  · intro e
    unfold generate quotaGuard
    cases hn : normalizeInput raw with
    | error e2 =>
        intro _
        rfl
    | ok p =>
        obtain ⟨sentences, n⟩ := p
        dsimp only
        by_cases hq : usedToday store.sessions userId day + n > 100
        · rw [if_pos hq]
          intro _
          rfl
        · rw [if_neg hq]
          dsimp only
          cases writeOk with
          | false =>
              intro _
              rfl
          | true =>
              rw [if_neg (by decide)]
              dsimp only
              intro h
              exact Except.noConfusion h
  · intro sentences n hnorm hle hw
    subst hw
    rw [generate_ok_eq svc store userId day sessionId freshCardId durationMs raw
      sentences n hnorm hle]
    exact ⟨_, rfl⟩

/-- Witness for C5: 31 sentences abort with the empty store unchanged, and a
five-sentence batch whose per-sentence calls all fail still returns a
response. -/
theorem abort_before_processing_spec_witness :
    ((generate (fun _ => ItemResult.failure "err") true ⟨[], []⟩ 0 0 1 1 0
        (List.replicate 31 "x")).1 = (⟨[], []⟩ : Store)) ∧
    (∃ resp, (generate (fun _ => ItemResult.failure "err") true ⟨[], []⟩ 0 0 1 1 0
        ["aa", "bb", "cc", "dd", "ee"]).2 = .ok resp) := by
  constructor
  · exact (abort_before_processing_spec (fun _ => ItemResult.failure "err") true
      ⟨[], []⟩ 0 0 1 1 0 (List.replicate 31 "x")).1 GenError.validationError rfl
  · exact (abort_before_processing_spec (fun _ => ItemResult.failure "err") true
      ⟨[], []⟩ 0 0 1 1 0 ["aa", "bb", "cc", "dd", "ee"]).2
      ["aa", "bb", "cc", "dd", "ee"] 5 rfl (by decide) rfl

/-- A generation request either fails with the store unchanged or passed
validation, quota and the session write. -/
theorem generate_err_or_ok (svc : String → ItemResult) (writeOk : Bool)
    (store : Store) (userId day sessionId freshCardId durationMs : Nat)
    (raw : List String) :
    (∃ e, generate svc writeOk store userId day sessionId freshCardId
        durationMs raw = (store, .error e)) ∨
    (writeOk = true ∧ ∃ sentences n, normalizeInput raw = .ok (sentences, n) ∧
      usedToday store.sessions userId day + n ≤ 100) := by
  unfold generate quotaGuard
  cases hn : normalizeInput raw with
  | error e => exact Or.inl ⟨e, rfl⟩
  | ok p =>
      obtain ⟨sentences, n⟩ := p
      dsimp only
      by_cases hq : usedToday store.sessions userId day + n > 100
      · rw [if_pos hq]
        exact Or.inl ⟨_, rfl⟩
      · rw [if_neg hq]
        dsimp only
        cases writeOk with
        | false => exact Or.inl ⟨_, rfl⟩
        | true => exact Or.inr ⟨rfl, sentences, n, rfl, by omega⟩

/-- A batch accepted by the Input Normalizer has between 5 and 30
sentences. -/
theorem normalizeInput_count_bounds (raw sentences : List String) (n : Nat)
    (h : normalizeInput raw = .ok (sentences, n)) : 5 ≤ n ∧ n ≤ 30 := by
  unfold normalizeInput at h
  split at h
  · exact absurd h (by simp)
  · next h1 =>
      split at h
      · exact absurd h (by simp)
      · push_neg at h1
        have h2 := Except.ok.inj h
        rw [Prod.mk.injEq] at h2
        obtain ⟨hs, hn⟩ := h2
        omega

/-- C6: the session status state machine is one-directional — a terminal
status admits no further transition, every transition is either `pending` to
`processing` or `processing` to a terminal status, every two-step chain is
exactly `pending`, `processing`, terminal, there is no three-step chain,
session creation enters `processing`, finalization moves a `processing`
session to a terminal status along a legal transition, and a generation
request only ever appends new sessions, leaving every existing session (in
particular every terminal one) untouched, so a retry creates a new session. -/
theorem status_state_machine_spec :
    (∀ s t, isTerminal s = true → canTransition s t = false) ∧
    (∀ s t, canTransition s t = true →
      (s = SessionStatus.pending ∧ t = SessionStatus.processing) ∨
      (s = SessionStatus.processing ∧ isTerminal t = true)) ∧
    (∀ a b c, canTransition a b = true → canTransition b c = true →
      a = SessionStatus.pending ∧ b = SessionStatus.processing ∧
      isTerminal c = true) ∧
    (∀ a b c d, canTransition a b = true → canTransition b c = true →
      canTransition c d = true → False) ∧
    (∀ userId n sessionId day,
      (createSession userId n sessionId day).status =
        SessionStatus.processing) ∧
    (∀ s g durationMs total, s.status = SessionStatus.processing →
      canTransition s.status
        (finalizeSession s g durationMs total).status = true ∧
      isTerminal (finalizeSession s g durationMs total).status = true) ∧
    (∀ svc writeOk store userId day sessionId freshCardId durationMs raw,
      ∃ tail, (generate svc writeOk store userId day sessionId freshCardId
        durationMs raw).1.sessions = store.sessions ++ tail) := by
  refine ⟨?_, ?_, ?_, ?_, ?_, ?_, ?_⟩
  · intro s t hs
    cases s <;> cases t <;> simp_all [isTerminal, canTransition]
  · intro s t hst
    cases s <;> cases t <;> simp_all [isTerminal, canTransition]
  · intro a b c hab hbc
    cases a <;> cases b <;> cases c <;> simp_all [isTerminal, canTransition]
  · intro a b c d hab hbc hcd
    cases a <;> cases b <;> cases c <;> cases d <;>
      simp_all [canTransition]
  · intro userId n sessionId day
    rfl
  · intro s g durationMs total hs
    have hfin : (finalizeSession s g durationMs total).status =
        finalStatus g total := rfl
    rw [hfin, hs]
    unfold finalStatus
    split_ifs <;> exact ⟨rfl, rfl⟩
  · intro svc writeOk store userId day sessionId freshCardId durationMs raw
    rcases generate_err_or_ok svc writeOk store userId day sessionId
      freshCardId durationMs raw with ⟨e, he⟩ | ⟨hw, sentences, n, hnorm, hq⟩
    · refine ⟨[], ?_⟩
      rw [he, List.append_nil]
    · subst hw
      rw [generate_ok_eq svc store userId day sessionId freshCardId durationMs
        raw sentences n hnorm hq]
      exact ⟨_, rfl⟩

/-- Witness for C6: a completed session cannot re-enter processing, and a
concrete finalized session is terminal. -/
theorem status_state_machine_spec_witness :
    canTransition SessionStatus.completed SessionStatus.processing = false ∧
    isTerminal (finalizeSession (createSession 0 5 1 0) 0 7 5).status = true := by
  constructor
  · exact status_state_machine_spec.1 SessionStatus.completed
      SessionStatus.processing rfl
  · exact (status_state_machine_spec.2.2.2.2.2.1 (createSession 0 5 1 0) 0 7 5
      rfl).2

/-- C7: every accepted batch count lies between 5 and 30, so every session
created by a generation request satisfies 5 ≤ inputCount ≤ 30 (and a store in
which all sessions satisfy the bound still does after any request);
`inputCount` is set at creation and finalization never mutates it;
`generatedCount` starts at 0, stays non-negative, and does not decrease from
creation to finalization. -/
theorem session_count_invariants_spec :
    (∀ raw sentences n, normalizeInput raw = .ok (sentences, n) →
      5 ≤ n ∧ n ≤ 30) ∧
    (∀ userId n sessionId day,
      (createSession userId n sessionId day).inputCount = n ∧
      (createSession userId n sessionId day).generatedCount = 0) ∧
    (∀ s g durationMs total,
      (finalizeSession s g durationMs total).inputCount = s.inputCount ∧
      0 ≤ (finalizeSession s g durationMs total).generatedCount) ∧
    (∀ userId n sessionId day g durationMs total,
      (createSession userId n sessionId day).generatedCount ≤
      (finalizeSession (createSession userId n sessionId day) g durationMs
        total).generatedCount) ∧
    (∀ svc writeOk store userId day sessionId freshCardId durationMs raw,
      (∀ s ∈ store.sessions, 5 ≤ s.inputCount ∧ s.inputCount ≤ 30) →
      ∀ s ∈ (generate svc writeOk store userId day sessionId freshCardId
        durationMs raw).1.sessions, 5 ≤ s.inputCount ∧ s.inputCount ≤ 30) := by
  refine ⟨fun raw sentences n h => normalizeInput_count_bounds raw sentences n h,
    fun _ _ _ _ => ⟨rfl, rfl⟩, fun _ _ _ _ => ⟨rfl, Nat.zero_le _⟩,
    fun _ _ _ _ _ _ _ => Nat.zero_le _, ?_⟩
  intro svc writeOk store userId day sessionId freshCardId durationMs raw hinv s hs
  rcases generate_err_or_ok svc writeOk store userId day sessionId freshCardId
    durationMs raw with ⟨e, he⟩ | ⟨hw, sentences, n, hnorm, hq⟩
  · rw [he] at hs
    exact hinv s hs
  · subst hw
    rw [generate_ok_eq svc store userId day sessionId freshCardId durationMs raw
      sentences n hnorm hq] at hs
    dsimp only at hs
    rw [List.mem_append] at hs
    rcases hs with hs | hs
    · exact hinv s hs
    · rw [List.mem_singleton] at hs
      subst hs
      have hcount : (finalizeSession (createSession userId n sessionId day)
          (reconcileOutcome sentences
            (batchTranslate svc sentences)).generatedCount durationMs
          n).inputCount = n := rfl
      rw [hcount]
      exact normalizeInput_count_bounds raw sentences n hnorm

/-- Witness for C7: concrete creation and finalization preserve the count
invariants, and a concrete request keeps every stored session in bounds. -/
theorem session_count_invariants_spec_witness :
    (5 ≤ 5 ∧ 5 ≤ 30) ∧
    (createSession 0 5 1 0).inputCount = 5 ∧
    (finalizeSession (createSession 0 5 1 0) 3 7 5).inputCount =
      (createSession 0 5 1 0).inputCount ∧
    ∀ s ∈ (generate (fun t => ItemResult.success t) true ⟨[], []⟩ 0 0 1 1 0
      ["aa", "bb", "cc", "dd", "ee"]).1.sessions,
      5 ≤ s.inputCount ∧ s.inputCount ≤ 30 := by
  refine ⟨?_, ?_, ?_, ?_⟩
  · exact session_count_invariants_spec.1 ["aa", "bb", "cc", "dd", "ee"]
      ["aa", "bb", "cc", "dd", "ee"] 5 rfl
  · exact (session_count_invariants_spec.2.1 0 5 1 0).1
  · exact (session_count_invariants_spec.2.2.1 (createSession 0 5 1 0) 3 7 5).1
  · exact session_count_invariants_spec.2.2.2.2 (fun t => ItemResult.success t)
      true ⟨[], []⟩ 0 0 1 1 0 ["aa", "bb", "cc", "dd", "ee"]
      (by intro s hs; cases hs)

/-- Every flashcard built by the Result Reconciler has source `ai`, is not
edited, and carries one of the kept pairs. -/
theorem mem_mkFlashcards (userId freshId : Nat)
    (items : List (String × String)) (f : Flashcard)
    (hf : f ∈ mkFlashcards userId freshId items) :
    f.source = "ai" ∧ f.isEdited = false ∧
    ∃ p ∈ items, f.sentenceEn = p.1 ∧ f.translationPl = p.2 := by
  unfold mkFlashcards at hf
  rw [List.mem_map] at hf
  obtain ⟨q, hq, rfl⟩ := hf
  refine ⟨rfl, rfl, q.2, ?_, rfl, rfl⟩
  have := List.mem_map_of_mem Prod.snd hq
  rwa [List.enum_map_snd] at this

/-- Every pair kept after the defensive re-check has a non-empty sentence
and translation, each within the 200-character bound. -/
theorem mem_successPairs_bounds (sentences : List String)
    (results : List ItemResult) (p : String × String)
    (hp : p ∈ successPairs sentences results) :
    0 < p.1.length ∧ p.1.length ≤ 200 ∧ 0 < p.2.length ∧ p.2.length ≤ 200 := by
  unfold successPairs at hp
  rw [List.mem_filterMap] at hp
  obtain ⟨q, hq, hval⟩ := hp
  cases hr : reconcileItem q.1 q.2 with
  | failure r =>
      rw [hr] at hval
      cases hval
  | success t =>
      rw [hr] at hval
      have hp2 : (q.1, t) = p := Option.some.inj hval
      cases q2 : q.2 with
      | failure r =>
          rw [q2] at hr
          cases hr
      | success t0 =>
          rw [q2] at hr
          unfold reconcileItem at hr
          dsimp only at hr
          split_ifs at hr with hcond
          have ht : t0 = t := ItemResult.success.inj hr
          subst ht
          rw [← hp2]
          dsimp only
          push_neg at hcond
          exact ⟨by omega, by omega, by omega, by omega⟩

/-- C8: the Result Reconciler keeps a successful translation exactly when
both the sentence and the translation are non-empty and within 200
characters, demoting any other item to a failure; and every flashcard
persisted and returned by a generation request has source `ai`, `isEdited`
false, and non-empty `sentenceEn` and `translationPl` of at most 200
characters. -/
theorem flashcard_shape_spec :
    (∀ sen t, reconcileItem sen (ItemResult.success t) = ItemResult.success t ↔
      (0 < sen.length ∧ sen.length ≤ 200 ∧ 0 < t.length ∧ t.length ≤ 200)) ∧
    (∀ sen t, (sen.length = 0 ∨ sen.length > 200 ∨ t.length = 0 ∨
        t.length > 200) →
      reconcileItem sen (ItemResult.success t) =
        ItemResult.failure "invalid generated output") ∧
    (∀ svc writeOk store userId day sessionId freshCardId durationMs raw st2
        resp,
      generate svc writeOk store userId day sessionId freshCardId durationMs
        raw = (st2, .ok resp) →
      st2.flashcards = store.flashcards ++ resp.flashcards ∧
      ∀ f ∈ resp.flashcards,
        f.source = "ai" ∧ f.isEdited = false ∧
        0 < f.sentenceEn.length ∧ f.sentenceEn.length ≤ 200 ∧
        0 < f.translationPl.length ∧ f.translationPl.length ≤ 200) := by
  refine ⟨?_, ?_, ?_⟩
  · intro sen t
    unfold reconcileItem
    dsimp only
    split_ifs with h
    · exact iff_of_false (by simp) (by omega)
    · exact iff_of_true rfl (by omega)
  · intro sen t h
    unfold reconcileItem
    dsimp only
    rw [if_pos h]
  · intro svc writeOk store userId day sessionId freshCardId durationMs raw
      st2 resp hgen
    rcases generate_err_or_ok svc writeOk store userId day sessionId
      freshCardId durationMs raw with ⟨e, he⟩ | ⟨hw, sentences, n, hnorm, hq⟩
    · rw [he] at hgen
      have h2 := congrArg Prod.snd hgen
      exact absurd h2 (by simp)
    · subst hw
      rw [generate_ok_eq svc store userId day sessionId freshCardId durationMs
        raw sentences n hnorm hq] at hgen
      rw [Prod.mk.injEq] at hgen
      obtain ⟨hst, hresp⟩ := hgen
      have hresp2 := Except.ok.inj hresp
      subst hst
      subst hresp2
      constructor
      · rfl
      · intro f hf
        have hmem := mem_mkFlashcards userId freshCardId _ f hf
        obtain ⟨hsrc, hed, p, hp, hfe, hfp⟩ := hmem
        have hb : 0 < p.1.length ∧ p.1.length ≤ 200 ∧ 0 < p.2.length ∧
            p.2.length ≤ 200 := by
          refine mem_successPairs_bounds sentences
            (batchTranslate svc sentences) p ?_
          simpa [reconcileOutcome] using hp
        rw [hfe, hfp]
        exact ⟨hsrc, hed, hb.1, hb.2.1, hb.2.2.1, hb.2.2.2⟩

/-- Witness for C8: a concrete valid translation is kept, an empty one is
demoted, and the flashcards of a concrete all-success request have source
`ai` and are unedited. -/
theorem flashcard_shape_spec_witness :
    reconcileItem "hello" (ItemResult.success "cześć") =
      ItemResult.success "cześć" ∧
    reconcileItem "hello" (ItemResult.success "") =
      ItemResult.failure "invalid generated output" ∧
    ∀ f ∈ (generate (fun t => ItemResult.success t) true ⟨[], []⟩ 0 0 1 1 0
        ["aa", "bb", "cc", "dd", "ee"]).2.toOption.elim []
          GenerateResponse.flashcards,
      f.source = "ai" ∧ f.isEdited = false := by
  refine ⟨?_, ?_, ?_⟩
  · exact (flashcard_shape_spec.1 "hello" "cześć").mpr (by decide)
  · exact flashcard_shape_spec.2.1 "hello" "" (by decide)
  · intro f hf
    have h := (flashcard_shape_spec.2.2 (fun t => ItemResult.success t) true
      ⟨[], []⟩ 0 0 1 1 0 ["aa", "bb", "cc", "dd", "ee"] _ _ rfl).2 f
      (by exact hf)
    exact ⟨h.1, h.2.1⟩

/-- Every hook update other than `goToPage` leaves the offset at zero. -/
theorem applyOp_offset_eq_zero (f : FlashcardFilters) (op : FilterOp)
    (h : ∀ p, op ≠ FilterOp.opGoToPage p) : (applyOp f op).offset = 0 := by
  cases op with
  | opGoToPage p => exact absurd rfl (h p)
  | opSetSource s => rfl
  | opSetSearch s => rfl
  | opSetSort s => rfl
  | opSetOrder o => rfl
  | opReset => rfl

/-- C9: in the `useFlashcards` hook, each of `setSource`, `setSearch`,
`setSort` and `setOrder` produces a filter state whose offset is 0 while
leaving the limit and the other untouched filter fields unchanged; hence in
every filter state reachable from the defaults through the hook's updates, a
nonzero offset can only have been produced by a final `goToPage`. -/
theorem useFlashcards_offset_spec :
    (∀ f s, (setSource f s).offset = 0 ∧ (setSource f s).limit = f.limit ∧
      (setSource f s).search = f.search ∧ (setSource f s).sort = f.sort ∧
      (setSource f s).order = f.order ∧ (setSource f s).source = s) ∧
    (∀ f s, (setSearch f s).offset = 0 ∧ (setSearch f s).limit = f.limit ∧
      (setSearch f s).source = f.source ∧ (setSearch f s).sort = f.sort ∧
      (setSearch f s).order = f.order ∧ (setSearch f s).search = s) ∧
    (∀ f s, (setSort f s).offset = 0 ∧ (setSort f s).limit = f.limit ∧
      (setSort f s).source = f.source ∧ (setSort f s).search = f.search ∧
      (setSort f s).order = f.order ∧ (setSort f s).sort = s) ∧
    (∀ f o, (setOrder f o).offset = 0 ∧ (setOrder f o).limit = f.limit ∧
      (setOrder f o).source = f.source ∧ (setOrder f o).search = f.search ∧
      (setOrder f o).sort = f.sort ∧ (setOrder f o).order = o) ∧
    (∀ ops, (applyOps DEFAULT_FILTERS ops).offset ≠ 0 →
      ∃ front page, ops = front ++ [FilterOp.opGoToPage page]) := by
  refine ⟨fun f s => ⟨rfl, rfl, rfl, rfl, rfl, rfl⟩,
    fun f s => ⟨rfl, rfl, rfl, rfl, rfl, rfl⟩,
    fun f s => ⟨rfl, rfl, rfl, rfl, rfl, rfl⟩,
    fun f o => ⟨rfl, rfl, rfl, rfl, rfl, rfl⟩, ?_⟩
  intro ops hoff
  rcases List.eq_nil_or_concat ops with rfl | ⟨front, op, rfl⟩
  · exact absurd rfl hoff
  · rw [List.concat_eq_append] at hoff ⊢
    refine ⟨front, ?_⟩
    have happ : applyOps DEFAULT_FILTERS (front ++ [op]) =
        applyOp (applyOps DEFAULT_FILTERS front) op := by
      unfold applyOps
      rw [List.foldl_append]
      rfl
    rw [happ] at hoff
    cases op with
    | opGoToPage p => exact ⟨p, rfl⟩
    | opSetSource s => exact absurd rfl hoff
    | opSetSearch s => exact absurd rfl hoff
    | opSetSort s => exact absurd rfl hoff
    | opSetOrder o => exact absurd rfl hoff
    | opReset => exact absurd rfl hoff

/-- Witness for C9: a concrete `setSource` call resets the offset, and a
concrete update sequence with nonzero offset ends in `goToPage`. -/
theorem useFlashcards_offset_spec_witness :
    (setSource DEFAULT_FILTERS SourceFilter.ai).offset = 0 ∧
    (∃ front page,
      [FilterOp.opSetSource SourceFilter.ai, FilterOp.opGoToPage 3] =
        front ++ [FilterOp.opGoToPage page]) := by
  constructor
  · exact (useFlashcards_offset_spec.1 DEFAULT_FILTERS SourceFilter.ai).1
  · exact useFlashcards_offset_spec.2.2.2.2
      [FilterOp.opSetSource SourceFilter.ai, FilterOp.opGoToPage 3]
      (by decide)

/-- The inclusive integer range is empty when its upper bound is below its
lower bound. -/
theorem intRange_eq_nil (a b : Int) (h : b < a) : intRange a b = [] := by
  unfold intRange
  have h0 : (b + 1 - a).toNat = 0 := by omega
  rw [h0]
  rfl

/-- Membership in the inclusive integer range. -/
theorem mem_intRange (a b x : Int) : x ∈ intRange a b ↔ a ≤ x ∧ x ≤ b := by
  unfold intRange
  simp only [List.mem_map, List.mem_range]
  constructor
  · rintro ⟨i, hi, rfl⟩
    omega
  · rintro ⟨h1, h2⟩
    exact ⟨(x - a).toNat, by omega, by omega⟩

/-- A nonempty inclusive integer range starts with its lower bound. -/
theorem intRange_cons (a b : Int) (h : a ≤ b) :
    intRange a b = a :: intRange (a + 1) b := by
  unfold intRange
  have hk : (b + 1 - a).toNat = (b + 1 - (a + 1)).toNat + 1 := by omega
  rw [hk, List.range_succ_eq_map, List.map_cons, List.map_map]
  congr 1
  · simp
  · apply List.map_congr_left
    intro x hx
    simp only [Function.comp_apply]
    push_cast
    ring

/-- The first element of a nonempty inclusive integer range. -/
theorem intRange_head? (a b : Int) (h : a ≤ b) :
    (intRange a b).head? = some a := by
  rw [intRange_cons a b h]
  rfl

/-- The last element of a nonempty inclusive integer range. -/
theorem intRange_getLast? (a b : Int) (h : a ≤ b) :
    (intRange a b).getLast? = some b := by
  unfold intRange
  cases hcase : (b + 1 - a).toNat with
  | zero => omega
  | succ k =>
      rw [List.range_succ, List.map_append, List.map_singleton,
        List.getLast?_concat]
      congr 1
      omega

/-- The last element of a nonempty inclusive integer range, with default. -/
theorem intRange_getLastD (a b d : Int) (h : a ≤ b) :
    (intRange a b).getLastD d = b := by
  rw [List.getLastD_eq_getLast?, intRange_getLast? a b h]
  rfl

/-- The inclusive integer range is strictly increasing. -/
theorem intRange_pairwise (a b : Int) : (intRange a b).Pairwise (· < ·) := by
  unfold intRange
  refine List.Pairwise.map _ ?_ (List.pairwise_lt_range _)
  intro i j hij
  omega

/-- Extracting the numeric entries of a pure page list gives the list back. -/
theorem filterMap_entryNum_map_page (l : List Int) :
    (l.map PageEntry.page).filterMap entryNum = l := by
  induction l with
  | nil => rfl
  | cons x xs ih =>
      rw [List.map_cons, List.filterMap_cons]
      simp only [entryNum]
      rw [ih]

/-- An optional ellipsis contributes no numeric entry. -/
theorem filterMap_entryNum_if (c : Prop) [Decidable c] :
    (if c then [PageEntry.ellipsis] else []).filterMap entryNum =
      ([] : List Int) := by
  split <;> rfl

/-- A list of pure page entries has no misplaced ellipsis. -/
theorem ellipsisOk_map_page (l : List Int) :
    ellipsisOk (l.map PageEntry.page) = true := by
  induction l with
  | nil => rfl
  | cons x xs ih =>
      cases xs with
      | nil => rfl
      | cons y ys =>
          rw [List.map_cons, List.map_cons]
          rw [show ellipsisOk (PageEntry.page x :: PageEntry.page y ::
              ys.map PageEntry.page) =
            ellipsisOk (PageEntry.page y :: ys.map PageEntry.page) from rfl]
          rw [← List.map_cons]
          exact ih

/-- An ellipsis after a block of page entries and before a final page is
well placed exactly when the final page exceeds the last block page by more
than one. -/
theorem ellipsisOk_pages_between (c t : Int) (l : List Int) :
    ellipsisOk (PageEntry.page c :: (l.map PageEntry.page ++
      [PageEntry.ellipsis, PageEntry.page t])) =
      decide (t - l.getLastD c > 1) := by
  induction l generalizing c with
  | nil =>
      show ellipsisOk [PageEntry.page c, PageEntry.ellipsis, PageEntry.page t]
        = decide (t - c > 1)
      rw [show ellipsisOk [PageEntry.page c, PageEntry.ellipsis,
          PageEntry.page t] =
        (decide (t - c > 1) && ellipsisOk [PageEntry.page t]) from rfl]
      rw [show ellipsisOk [PageEntry.page t] = true from rfl]
      exact Bool.and_true _
  | cons x xs ih =>
      rw [List.map_cons, List.cons_append]
      rw [show ellipsisOk (PageEntry.page c :: PageEntry.page x ::
          (xs.map PageEntry.page ++
            [PageEntry.ellipsis, PageEntry.page t])) =
        ellipsisOk (PageEntry.page x :: (xs.map PageEntry.page ++
          [PageEntry.ellipsis, PageEntry.page t])) from rfl]
      rw [ih x]
      rw [List.getLastD_cons]
/-- C10: in the `Pagination` component, for every `totalPages` of at least 2
and every `currentPage` between 1 and `totalPages`, the computed page-number
list starts with page 1 and ends with page `totalPages`, its numeric entries
are strictly increasing, it contains the current page, and every ellipsis
entry sits between two numeric entries that differ by more than one. -/
theorem pagination_page_numbers_spec (currentPage totalPages : Int)
    (htp : 2 ≤ totalPages) (hcp1 : 1 ≤ currentPage)
    (hcp2 : currentPage ≤ totalPages) :
    (pageNumbers currentPage totalPages).head? = some (PageEntry.page 1) ∧
    (pageNumbers currentPage totalPages).getLast? =
      some (PageEntry.page totalPages) ∧
    List.Chain' (· < ·)
      (numericEntries (pageNumbers currentPage totalPages)) ∧
    PageEntry.page currentPage ∈ pageNumbers currentPage totalPages ∧
    ellipsisOk (pageNumbers currentPage totalPages) = true := by
  unfold pageNumbers
  by_cases hsmall : totalPages ≤ 5 + 2
  · rw [if_pos hsmall]
    refine ⟨?_, ?_, ?_, ?_, ?_⟩
    · rw [intRange_cons 1 totalPages (by omega), List.map_cons]
      rfl
    · rw [List.getLast?_map, intRange_getLast? 1 totalPages (by omega)]
      rfl
    · simp only [numericEntries]
      rw [filterMap_entryNum_map_page]
      exact (intRange_pairwise 1 totalPages).chain'
    · exact List.mem_map_of_mem PageEntry.page
        ((mem_intRange 1 totalPages currentPage).mpr ⟨hcp1, hcp2⟩)
    · exact ellipsisOk_map_page _
  · rw [if_neg hsmall]
    push_neg at hsmall
    set s := max 2 (currentPage - 1) with hs
    set e := min (totalPages - 1) (currentPage + 1) with he
    have hs2 : 2 ≤ s := by omega
    have hse : s ≤ e := by omega
    have hetp : e ≤ totalPages - 1 := by omega
    refine ⟨?_, ?_, ?_, ?_, ?_⟩
    · rfl
    · rw [List.getLast?_concat]
    · simp only [numericEntries, List.filterMap_append,
        filterMap_entryNum_map_page, filterMap_entryNum_if,
        List.filterMap_cons, List.filterMap_nil, entryNum, List.nil_append,
        List.append_nil, List.append_assoc, List.singleton_append]
      refine List.Pairwise.chain' ?_
      rw [List.pairwise_cons]
      constructor
      · intro b hb
        rw [List.mem_append] at hb
        rcases hb with hb | hb
        · rw [mem_intRange] at hb
          omega
        · rw [List.mem_singleton] at hb
          omega
      · rw [List.pairwise_append]
        refine ⟨intRange_pairwise _ _, List.pairwise_singleton _ _, ?_⟩
        intro x hx y hy
        rw [mem_intRange] at hx
        rw [List.mem_singleton] at hy
        omega
    · by_cases hc1 : currentPage = 1
      · subst hc1
        exact List.mem_append_left _ (List.mem_append_left _
          (List.mem_append_left _ (List.mem_append_left _
            (List.mem_singleton.mpr rfl))))
      · by_cases hct : currentPage = totalPages
        · subst hct
          exact List.mem_append_right _ (List.mem_singleton.mpr rfl)
        · refine List.mem_append_left _ (List.mem_append_left _
            (List.mem_append_right _ ?_))
          exact List.mem_map_of_mem PageEntry.page
            ((mem_intRange s e currentPage).mpr ⟨by omega, by omega⟩)
    · by_cases hgap1 : s > 2
      · rw [if_pos hgap1]
        by_cases hgap2 : e < totalPages - 1
        · rw [if_pos hgap2]
          rw [intRange_cons s e hse]
          simp only [List.map_cons, List.append_assoc,
            List.singleton_append, List.cons_append, List.nil_append]
          rw [show ∀ X, ellipsisOk (PageEntry.page 1 :: PageEntry.ellipsis ::
              PageEntry.page s :: X) =
            (decide (s - 1 > 1) && ellipsisOk (PageEntry.page s :: X))
            from fun X => rfl]
          rw [ellipsisOk_pages_between]
          by_cases hse2 : s + 1 ≤ e
          · rw [intRange_getLastD _ _ _ hse2]
            simp only [Bool.and_eq_true, decide_eq_true_eq]
            omega
          · rw [intRange_eq_nil _ _ (by omega)]
            simp only [List.getLastD_nil, Bool.and_eq_true,
              decide_eq_true_eq]
            omega
        · rw [if_neg hgap2]
          rw [intRange_cons s e hse]
          simp only [List.map_cons, List.append_assoc,
            List.singleton_append, List.cons_append, List.nil_append]
          rw [show ∀ X, ellipsisOk (PageEntry.page 1 :: PageEntry.ellipsis ::
              PageEntry.page s :: X) =
            (decide (s - 1 > 1) && ellipsisOk (PageEntry.page s :: X))
            from fun X => rfl]
          have hC := ellipsisOk_map_page ((s :: intRange (s + 1) e) ++
            [totalPages])
          rw [List.map_append, List.map_cons, List.map_singleton,
            List.cons_append] at hC
          rw [hC, Bool.and_true, decide_eq_true_eq]
          omega
      · rw [if_neg hgap1]
        by_cases hgap2 : e < totalPages - 1
        · rw [if_pos hgap2]
          simp only [List.map_cons, List.append_assoc,
            List.singleton_append, List.cons_append, List.nil_append]
          rw [ellipsisOk_pages_between, intRange_getLastD _ _ _ hse,
            decide_eq_true_eq]
          omega
        · rw [if_neg hgap2]
          simp only [List.map_cons, List.append_assoc,
            List.singleton_append, List.cons_append, List.nil_append]
          have hC := ellipsisOk_map_page ((1 :: intRange s e) ++ [totalPages])
          rw [List.map_append, List.map_cons, List.map_singleton,
            List.cons_append] at hC
          exact hC

/-- Witness for C10: the page-number list for page 5 of 10 satisfies all
five properties. -/
theorem pagination_page_numbers_spec_witness :
    (pageNumbers 5 10).head? = some (PageEntry.page 1) ∧
    (pageNumbers 5 10).getLast? = some (PageEntry.page 10) ∧
    List.Chain' (· < ·) (numericEntries (pageNumbers 5 10)) ∧
    PageEntry.page 5 ∈ pageNumbers 5 10 ∧
    ellipsisOk (pageNumbers 5 10) = true :=
  pagination_page_numbers_spec 5 10 (by decide) (by decide) (by decide)

end Fiszki
